import Mathlib

/-!
Verification development for the DealMe2 table/session system.

The repository under verification ships its UI-facing code (the table page and
the player page); the core components (card and deck model, table session
store, phase state machine, roster manager) are described by the design
document only. Definitions for those core components are therefore modelled
from the specification text, as marked in their doc comments. Definitions for
the client-side polling, freshness and advance-debounce behaviour are
translated directly from the page components in the repository.
-/

namespace DealMe

/-- Modelled from the spec: the game phase of a table session, in the fixed
cyclic order Waiting, Pre-Flop, Flop, Turn, River, Shuffle. -/
inductive GamePhase : Type
| Waiting
| PreFlop
| Flop
| Turn
| River
| Shuffle
deriving DecidableEq, Repr

/-- Modelled from the spec: an immutable card value of (rank, suit) drawn from
a fixed 52-value domain. -/
structure Card : Type where
  rank : Fin 13
  suit : Fin 4
deriving DecidableEq, Repr

/-- The 52 cards in a fixed canonical order, used as one concrete shuffle. -/
def stdDeck : List Card :=
  ((List.finRange 4).map (fun su => (List.finRange 13).map (fun r => Card.mk r su))).flatten

/-- Modelled from the spec: a seated player, identified by a stable opaque
identifier assigned at join time, holding a display alias and zero-to-two
pocket cards. Role flags are derived from the session role indices and are
not stored on the player. -/
structure Player : Type where
  playerId : Nat
  playerAlias : String
  pocketCards : List Card
deriving DecidableEq, Repr

/-- Modelled from the spec: one table session. It holds the ordered roster
(seating order), the current phase, the hand identifier and the monotonically
increasing hand number, the community cards, the live deck, the maximum roster
size, role indices for dealer and blinds, and a counter issuing fresh player
identifiers. -/
structure Session : Type where
  players : List Player
  gamePhase : GamePhase
  handNumber : Nat
  handId : Nat
  communityCards : List Card
  deck : List Card
  maxPlayers : Nat
  dealerIdx : Option Nat
  smallBlindIdx : Option Nat
  bigBlindIdx : Option Nat
  nextPlayerId : Nat
deriving DecidableEq, Repr

/-- Modelled from the spec: the core-level error taxonomy. -/
inductive CoreError : Type
| SessionNotFound
| PlayerNotFound
| TableFull
| DeckExhausted
deriving DecidableEq, Repr

/-- Modelled from the spec: createSession initializes phase Waiting, an empty
roster, hand number 0, and no dealer or blinds. -/
def createSession (maxPlayers : Nat) : Session :=
  { players := []
    gamePhase := GamePhase.Waiting
    handNumber := 0
    handId := 0
    communityCards := []
    deck := []
    maxPlayers := maxPlayers
    dealerIdx := none
    smallBlindIdx := none
    bigBlindIdx := none
    nextPlayerId := 0 }

/-- Modelled from the spec: draw n cards from the top of the deck, failing
with DeckExhausted when fewer than n remain. -/
def draw (n : Nat) (deck : List Card) : Except CoreError (List Card × List Card) :=
  if deck.length < n then Except.error CoreError.DeckExhausted
  else Except.ok (deck.take n, deck.drop n)

/-- Modelled from the spec: deal 2 pocket cards to each seated player in
seating order, threading the deck through the roster. -/
def dealPockets : List Player → List Card → Except CoreError (List Player × List Card)
| [], deck => Except.ok ([], deck)
| p :: ps, deck =>
  match draw 2 deck with
  | Except.error e => Except.error e
  | Except.ok (cs, deck1) =>
    match dealPockets ps deck1 with
    | Except.error e => Except.error e
    | Except.ok (ps1, deck2) => Except.ok ({ p with pocketCards := cs } :: ps1, deck2)

/-- Modelled from the spec: clear the pocket cards of every seated player. -/
def clearPockets (ps : List Player) : List Player :=
  ps.map (fun p => { p with pocketCards := [] })

/-- Modelled from the spec: the dealer seat for the next hand, the roster
successor of the previous dealer, or the dealer-elect seat on the first hand;
no dealer with an empty roster. -/
def nextDealerIdx (s : Session) (n : Nat) : Option Nat :=
  if n = 0 then none
  else some (if s.handNumber = 0 then s.dealerIdx.getD 0 % n
             else (s.dealerIdx.getD 0 + 1) % n)

/-- Modelled from the spec: the phase state machine transition table. From
Waiting: rotate the dealer to the roster successor of the previous dealer (or
the dealer-elect seat on the first hand), assign the blinds as successors of
the dealer, allocate a fresh shuffled deck (passed in as the parameter), deal
2 pocket cards to each seated player in seating order, increment the hand
number and assign a new hand identifier, moving to Pre-Flop. From Pre-Flop,
Flop and Turn: reveal 3, 1 and 1 community cards drawn from the deck. From
River: clear community cards, clear all pocket cards, discard the remaining
deck, moving to Shuffle. From Shuffle: move back to Waiting. -/
def advancePhase (fresh : List Card) (s : Session) : Except CoreError Session :=
  match s.gamePhase with
  | GamePhase.Waiting =>
    let n := s.players.length
    match dealPockets s.players fresh with
    | Except.error e => Except.error e
    | Except.ok (players1, deck1) =>
      let newDealer : Option Nat := nextDealerIdx s n
      Except.ok { s with
        players := players1
        gamePhase := GamePhase.PreFlop
        handNumber := s.handNumber + 1
        handId := s.handId + 1
        communityCards := []
        deck := deck1
        dealerIdx := newDealer
        smallBlindIdx := newDealer.map (fun d => (d + 1) % n)
        bigBlindIdx := newDealer.map (fun d => (d + 2) % n) }
  | GamePhase.PreFlop =>
    match draw 3 s.deck with
    | Except.error e => Except.error e
    | Except.ok (cs, deck1) =>
      Except.ok { s with gamePhase := GamePhase.Flop
                         communityCards := s.communityCards ++ cs
                         deck := deck1 }
  | GamePhase.Flop =>
    match draw 1 s.deck with
    | Except.error e => Except.error e
    | Except.ok (cs, deck1) =>
      Except.ok { s with gamePhase := GamePhase.Turn
                         communityCards := s.communityCards ++ cs
                         deck := deck1 }
  | GamePhase.Turn =>
    match draw 1 s.deck with
    | Except.error e => Except.error e
    | Except.ok (cs, deck1) =>
      Except.ok { s with gamePhase := GamePhase.River
                         communityCards := s.communityCards ++ cs
                         deck := deck1 }
  | GamePhase.River =>
    Except.ok { s with gamePhase := GamePhase.Shuffle
                       communityCards := []
                       players := clearPockets s.players
                       deck := [] }
  | GamePhase.Shuffle =>
    Except.ok { s with gamePhase := GamePhase.Waiting }

/-- Seating index of the player carrying the given identifier, if seated. -/
def findPlayerIdx (pid : Nat) : List Player → Option Nat
| [] => none
| p :: ps =>
  if p.playerId = pid then some 0
  else (findPlayerIdx pid ps).map (fun i => i + 1)

/-- Modelled from the spec: join appends a new player at the end of the
seating order, failing with TableFull when the roster size already equals
maxPlayers; the very first player joining an empty table becomes the
dealer-elect for the first hand. -/
def joinPlayer (alias_ : String) (s : Session) : Except CoreError Session :=
  if s.maxPlayers ≤ s.players.length then Except.error CoreError.TableFull
  else
    let p : Player := { playerId := s.nextPlayerId, playerAlias := alias_, pocketCards := [] }
    if s.players.isEmpty then
      Except.ok { s with players := [p], nextPlayerId := s.nextPlayerId + 1,
                         dealerIdx := some 0, smallBlindIdx := some 0, bigBlindIdx := some 0 }
    else
      Except.ok { s with players := s.players ++ [p], nextPlayerId := s.nextPlayerId + 1 }

/-- Modelled from the spec: the recomputed dealer index after the seat at
index i was removed from a roster now holding n players: the successor seat
when the dealer itself was removed (wrapping), otherwise the same player at
its shifted position. -/
def kickDealerIdx (i d0 n : Nat) : Nat :=
  if i = d0 then d0 % n else if i < d0 then d0 - 1 else d0

/-- Modelled from the spec: kick removes the player from the seating order,
closing the gap, failing with PlayerNotFound when the identifier is not
seated. Pocket cards of the removed player are discarded immediately. The
dealer index is recomputed onto the remaining roster by the successor rule
(the seat after the removed dealer, wrapping), and the blinds are recomputed
as successors of the dealer, so the roster change never leaves a stale role.
Kicking the last remaining player leaves the phase unchanged and no roles
assigned. -/
def kickPlayer (pid : Nat) (s : Session) : Except CoreError Session :=
  match findPlayerIdx pid s.players with
  | none => Except.error CoreError.PlayerNotFound
  | some i =>
    let players1 := s.players.eraseIdx i
    let n := players1.length
    if n = 0 then
      Except.ok { s with players := players1, dealerIdx := none,
                         smallBlindIdx := none, bigBlindIdx := none }
    else
      let d := kickDealerIdx i (s.dealerIdx.getD 0) n
      Except.ok { s with players := players1, dealerIdx := some d,
                         smallBlindIdx := some ((d + 1) % n),
                         bigBlindIdx := some ((d + 2) % n) }

/-- Modelled from the spec: the three mutate operations of the store. -/
inductive Op : Type
| advance (fresh : List Card)
| join (alias_ : String)
| kick (pid : Nat)

/-- Modelled from the spec: dispatch of a mutate operation on one session. -/
def applyOp : Op → Session → Except CoreError Session
| Op.advance fresh, s => advancePhase fresh s
| Op.join a, s => joinPlayer a s
| Op.kick pid, s => kickPlayer pid s

/-- Modelled from the spec: the table session store, keyed by a session
identifier. -/
def Store : Type := List (Nat × Session)

/-- Modelled from the spec: look a session up, failing with SessionNotFound
for an unknown identifier. -/
def getSessionSt (store : Store) (sid : Nat) : Except CoreError Session :=
  match store.lookup sid with
  | none => Except.error CoreError.SessionNotFound
  | some s => Except.ok s

/-- Replace the session stored under the given identifier. -/
def setSessionSt (store : Store) (sid : Nat) (s : Session) : Store :=
  store.map (fun kv => if kv.1 = sid then (sid, s) else kv)

/-- Modelled from the spec: mutate applies exactly one operation atomically;
an operation that fails commits no partial mutation, leaving the store
exactly as it was. -/
def mutateSt (store : Store) (sid : Nat) (op : Op) : Store × Except CoreError Session :=
  match getSessionSt store sid with
  | Except.error e => (store, Except.error e)
  | Except.ok s =>
    match applyOp op s with
    | Except.error e => (store, Except.error e)
    | Except.ok s1 => (setSessionSt store sid s1, Except.ok s1)

/-- Every card location of a session: the deck, the community cards and the
pocket cards of every seated player, as one list. -/
def sessionCards (s : Session) : List Card :=
  s.deck ++ s.communityCards ++ (s.players.map Player.pocketCards).flatten

/-- Modelled from the spec: one mutate step on a session; an advance step
consumes a fresh uniformly shuffled deck, which is any duplicate-free
arrangement of the 52 cards. -/
inductive Step : Session → Session → Prop
| advance (fresh : List Card) (s s' : Session) (hnd : fresh.Nodup)
    (hlen : fresh.length = 52) (h : advancePhase fresh s = Except.ok s') : Step s s'
| join (a : String) (s s' : Session) (h : joinPlayer a s = Except.ok s') : Step s s'
| kick (pid : Nat) (s s' : Session) (h : kickPlayer pid s = Except.ok s') : Step s s'

/-- Sessions reachable from a fresh session by any sequence of mutate
operations. -/
inductive Reachable : Session → Prop
| init (maxPlayers : Nat) : Reachable (createSession maxPlayers)
| step {s s' : Session} : Reachable s → Step s s' → Reachable s'

/-- Iterated advance with a fixed shuffle source. -/
def advanceIter (fresh : List Card) : Nat → Session → Except CoreError Session
| 0, s => Except.ok s
| k + 1, s =>
  match advancePhase fresh s with
  | Except.error e => Except.error e
  | Except.ok s1 => advanceIter fresh k s1

example : stdDeck.length = 52 := by decide
example : stdDeck.Nodup := by decide

/-- Client-side observable state of a polling page (the table page and the
player page hold the same triple): the held snapshot, the error message and
the wall-clock time of the last successful read. The snapshot payload type is
abstract. -/
structure ClientState (α : Type) : Type where
  table : Option α
  errMsg : Option String
  lastUpdated : Option Nat
deriving DecidableEq

/-- Initial client state: no snapshot, no error, no update time. -/
def initClient {α : Type} : ClientState α :=
  { table := none, errMsg := none, lastUpdated := none }

/-- One completed fetch of fetchTable, translated from the page component: a
successful response stores the new snapshot, records the wall-clock time of
the read and clears the error; a failed response only records the error
message, leaving the held snapshot and the update time in place. -/
def fetchStep {α : Type} (st : ClientState α) (result : Option α) (now : Nat) : ClientState α :=
  match result with
  | some t => { table := some t, errMsg := none, lastUpdated := some now }
  | none => { st with errMsg := some "Failed to fetch table" }

/-- What the page renders, translated from the component body. -/
inductive ClientView (α : Type) : Type
| errorPage
| notFound
| tableView (t : α) (disconnected : Bool)
deriving DecidableEq

/-- Render logic translated from the page component: a full error page only
when an error is flagged and no snapshot was ever stored; a not-found stub
when no snapshot and no error; otherwise the held snapshot, with the
connection marker set from the error flag. -/
def render {α : Type} (st : ClientState α) : ClientView α :=
  match st.table with
  | none => if st.errMsg.isSome then ClientView.errorPage else ClientView.notFound
  | some t => ClientView.tableView t st.errMsg.isSome

/-- Fold a sequence of fetch completions (result and wall-clock time) over a
client state. -/
def runPolling {α : Type} (rs : List (Option α × Nat)) (st0 : ClientState α) : ClientState α :=
  rs.foldl (fun st p => fetchStep st p.1 p.2) st0

/-- Poll interval of the full-table view, from the setInterval call of the
table page. -/
def tablePollIntervalMs : Nat := 5000

/-- Poll interval of the per-player hand view, from the usePolling options of
the player page. -/
def playerPollIntervalMs : Nat := 2000

/-- Freshness threshold of the status dot, from the inline comparison in both
pages. -/
def freshnessThresholdMs : Nat := 12000

/-- Wall-clock time of tick k of a fixed-interval poll schedule: setInterval
fires every interval milliseconds independently of past results. -/
def pollTick (intervalMs k : Nat) : Nat := intervalMs * k

/-- Colour of the status dot. -/
inductive Dot : Type
| green
| red
| gray
deriving DecidableEq

/-- Status dot logic translated from the page header: a flagged connection
error renders red; otherwise green exactly when the time since the last
successful read is under the freshness threshold, red when it is not, and
gray when no read ever succeeded. -/
def freshnessDot (connectionError : Bool) (lastUpdated : Option Nat) (now : Nat) : Dot :=
  if connectionError then Dot.red
  else
    match lastUpdated with
    | some t => if now - t < freshnessThresholdMs then Dot.green else Dot.red
    | none => Dot.gray

/-- Button label helper translated verbatim from getButtonText of the table
page: a switch over the phase with a default branch. -/
def getButtonText : GamePhase → String
| GamePhase.Waiting => "Deal"
| GamePhase.PreFlop => "Show Flop"
| GamePhase.Flop => "Show Turn"
| GamePhase.Turn => "Show River"
| GamePhase.River => "Shuffle"
| _ => "Advance Game"

/-- Key codes accepted by handleKeyPress of the table page. -/
def supportedKeyCodes : List String :=
  ["Space", "Enter", "PageDown", "ArrowRight", "ArrowDown", "KeyB", "Period"]

/-- Events of the table-page advance loop: a keydown with a key code, a click
on the advance button, completion of the in-flight advance request, and the
first successful table load. -/
inductive AdvEvent : Type
| keydown (code : String)
| click
| requestDone
| tableLoaded

/-- Abstract state of the table-page advance loop: the isAdvancing flag, the
number of advance requests currently in flight, and whether a table snapshot
has been loaded. -/
structure AdvState : Type where
  isAdvancing : Bool
  outstanding : Nat
  hasTable : Bool
deriving DecidableEq

/-- Initial advance-loop state: not advancing, nothing in flight, no table. -/
def initAdv : AdvState := { isAdvancing := false, outstanding := 0, hasTable := false }

/-- Advance-loop transition translated from handleKeyPress and the button of
the table page: a keydown issues a request only for a supported key code,
with a table loaded and with isAdvancing false, setting isAdvancing; the
button invokes the same handler and is additionally disabled while advancing;
request completion clears isAdvancing in the finally block. -/
def advStep (st : AdvState) : AdvEvent → AdvState
| AdvEvent.keydown code =>
  if code ∈ supportedKeyCodes ∧ st.hasTable ∧ st.isAdvancing = false then
    { st with isAdvancing := true, outstanding := st.outstanding + 1 }
  else st
| AdvEvent.click =>
  if st.hasTable ∧ st.isAdvancing = false then
    { st with isAdvancing := true, outstanding := st.outstanding + 1 }
  else st
| AdvEvent.requestDone =>
  if st.isAdvancing then { st with isAdvancing := false, outstanding := st.outstanding - 1 }
  else st
| AdvEvent.tableLoaded => { st with hasTable := true }

/-- Run the advance loop over a sequence of events. -/
def runAdv (evs : List AdvEvent) : AdvState := evs.foldl advStep initAdv

lemma draw_ok (n : Nat) (deck : List Card) (h : n ≤ deck.length) :
    draw n deck = Except.ok (deck.take n, deck.drop n) := by
  simp [draw, Nat.not_lt.mpr h]

lemma draw_err (n : Nat) (deck : List Card) (h : deck.length < n) :
    draw n deck = Except.error CoreError.DeckExhausted := by
  simp [draw, h]

lemma draw_spec {n : Nat} {deck cs d1 : List Card}
    (h : draw n deck = Except.ok (cs, d1)) :
    cs = deck.take n ∧ d1 = deck.drop n ∧ n ≤ deck.length := by
  by_cases hlt : deck.length < n
  · simp [draw, hlt] at h
  · simp [draw, hlt] at h
    exact ⟨h.1.symm, h.2.symm, Nat.not_lt.mp hlt⟩

lemma dealPockets_spec : ∀ (ps : List Player) (deck : List Card) (ps1 : List Player)
    (deck1 : List Card), dealPockets ps deck = Except.ok (ps1, deck1) →
    ps1.length = ps.length ∧
    ps1.map Player.playerId = ps.map Player.playerId ∧
    (∀ p ∈ ps1, p.pocketCards.length = 2) ∧
    (ps1.map Player.pocketCards).flatten ++ deck1 = deck ∧
    deck1 = deck.drop (2 * ps.length)
| [], deck, ps1, deck1, h => by
  simp only [dealPockets, Except.ok.injEq, Prod.mk.injEq] at h
  obtain ⟨rfl, rfl⟩ := h
  simp
| p :: ps, deck, ps1, deck1, h => by
  simp only [dealPockets] at h
  cases hdraw : draw 2 deck with
  | error e => simp [hdraw] at h
  | ok pair =>
    obtain ⟨cs, d1⟩ := pair
    simp only [hdraw] at h
    cases hrec : dealPockets ps d1 with
    | error e => simp [hrec] at h
    | ok pair2 =>
      obtain ⟨ps2, d2⟩ := pair2
      simp only [hrec, Except.ok.injEq, Prod.mk.injEq] at h
      obtain ⟨hps1, hdeck1⟩ := h
      obtain ⟨hcs, hd1, hlen2⟩ := draw_spec hdraw
      obtain ⟨ih_len, ih_ids, ih_two, ih_flat, ih_drop⟩ := dealPockets_spec ps d1 ps2 d2 hrec
      subst hps1 hdeck1 hcs hd1
      refine ⟨by simp [ih_len], by simp [ih_ids], ?_, ?_, ?_⟩
      · intro q hq
        rcases List.mem_cons.mp hq with hq | hq
        · subst hq; simpa using List.length_take_of_le hlen2
        · exact ih_two q hq
      · simp only [List.map_cons, List.flatten_cons, List.append_assoc, ih_flat]
        exact List.take_append_drop 2 deck
      · rw [ih_drop, List.drop_drop]
        congr 1
        simp
        ring

lemma dealPockets_isOk : ∀ (ps : List Player) (deck : List Card),
    2 * ps.length ≤ deck.length →
    ∃ ps1 deck1, dealPockets ps deck = Except.ok (ps1, deck1)
| [], deck, _ => ⟨[], deck, by simp [dealPockets]⟩
| p :: ps, deck, h => by
  have h2 : 2 ≤ deck.length := by simp at h; omega
  have hrest : 2 * ps.length ≤ (deck.drop 2).length := by
    simp [List.length_drop]; simp at h; omega
  obtain ⟨ps1, d1, hrec⟩ := dealPockets_isOk ps (deck.drop 2) hrest
  exact ⟨{ p with pocketCards := deck.take 2 } :: ps1, d1,
    by simp only [dealPockets, draw_ok 2 deck h2, hrec]⟩

lemma dealPockets_err : ∀ (ps : List Player) (deck : List Card),
    deck.length < 2 * ps.length →
    dealPockets ps deck = Except.error CoreError.DeckExhausted
| [], deck, h => by simp at h
| p :: ps, deck, h => by
  by_cases h2 : deck.length < 2
  · simp only [dealPockets, draw_err 2 deck h2]
  · have h2' : 2 ≤ deck.length := Nat.not_lt.mp h2
    have hrest : (deck.drop 2).length < 2 * ps.length := by
      simp [List.length_drop]; simp at h; omega
    simp only [dealPockets, draw_ok 2 deck h2', dealPockets_err ps (deck.drop 2) hrest]

lemma nextDealerIdx_spec (s : Session) (n : Nat) (hn : n ≠ 0) :
    ∃ d, nextDealerIdx s n = some d ∧ d < n := by
  unfold nextDealerIdx
  simp only [hn, if_false]
  refine ⟨_, rfl, ?_⟩
  have hpos : 0 < n := Nat.pos_of_ne_zero hn
  split <;> exact Nat.mod_lt _ hpos

lemma succ_mod_distinct (n d : Nat) (h3 : 3 ≤ n) (hd : d < n) :
    d ≠ (d + 1) % n ∧ d ≠ (d + 2) % n ∧ (d + 1) % n ≠ (d + 2) % n := by
  rcases Nat.lt_or_ge (d + 2) n with h | h
  · rw [Nat.mod_eq_of_lt (by omega), Nat.mod_eq_of_lt h]
    omega
  · rcases Nat.lt_or_ge (d + 1) n with h1 | h1
    · have hn : d + 2 = n := by omega
      rw [Nat.mod_eq_of_lt h1, hn, Nat.mod_self]
      omega
    · have hn : d + 1 = n := by omega
      have h2 : (d + 2) % n = 1 := by
        have he : d + 2 = n + 1 := by omega
        rw [he, Nat.add_mod_left]
        exact Nat.mod_eq_of_lt (by omega)
      rw [hn, Nat.mod_self, h2]
      omega

lemma advance_waiting_spec (fresh : List Card) (s : Session)
    (hph : s.gamePhase = GamePhase.Waiting)
    (hlen : 2 * s.players.length ≤ fresh.length) :
    ∃ s', advancePhase fresh s = Except.ok s' ∧
      s'.gamePhase = GamePhase.PreFlop ∧
      s'.handNumber = s.handNumber + 1 ∧
      s'.players.length = s.players.length ∧
      s'.players.map Player.playerId = s.players.map Player.playerId ∧
      (∀ p ∈ s'.players, p.pocketCards.length = 2) ∧
      ((s'.players.map Player.pocketCards).flatten).length = 2 * s.players.length ∧
      s'.communityCards = [] ∧
      s'.deck.length = fresh.length - 2 * s.players.length ∧
      s'.maxPlayers = s.maxPlayers ∧
      s'.dealerIdx = nextDealerIdx s s.players.length ∧
      s'.smallBlindIdx = (nextDealerIdx s s.players.length).map (fun d => (d + 1) % s.players.length) ∧
      s'.bigBlindIdx = (nextDealerIdx s s.players.length).map (fun d => (d + 2) % s.players.length) := by
  obtain ⟨ps1, deck1, hdeal⟩ := dealPockets_isOk s.players fresh hlen
  obtain ⟨hl, hids, htwo, hflat, hdrop⟩ := dealPockets_spec s.players fresh ps1 deck1 hdeal
  have heq : advancePhase fresh s = Except.ok { s with
      players := ps1
      gamePhase := GamePhase.PreFlop
      handNumber := s.handNumber + 1
      handId := s.handId + 1
      communityCards := []
      deck := deck1
      dealerIdx := nextDealerIdx s s.players.length
      smallBlindIdx := (nextDealerIdx s s.players.length).map (fun d => (d + 1) % s.players.length)
      bigBlindIdx := (nextDealerIdx s s.players.length).map (fun d => (d + 2) % s.players.length) } := by
    simp only [advancePhase, hph, hdeal]
  refine ⟨_, heq, ?_⟩
  have hflatlen : (ps1.map Player.pocketCards).flatten.length = 2 * s.players.length := by
    have hc := congrArg List.length hflat
    simp only [List.length_append] at hc
    have hd1 : deck1.length = fresh.length - 2 * s.players.length := by
      rw [hdrop, List.length_drop]
    omega
  have hd1 : deck1.length = fresh.length - 2 * s.players.length := by
    rw [hdrop, List.length_drop]
  simp [hl, hids, htwo, hflatlen, hd1]
  exact htwo

lemma advance_preflop_spec (s : Session) (fresh : List Card)
    (hph : s.gamePhase = GamePhase.PreFlop) (hlen : 3 ≤ s.deck.length) :
    advancePhase fresh s = Except.ok { s with
      gamePhase := GamePhase.Flop
      communityCards := s.communityCards ++ s.deck.take 3
      deck := s.deck.drop 3 } := by
  simp only [advancePhase, hph, draw_ok 3 s.deck hlen]

lemma advance_flop_spec (s : Session) (fresh : List Card)
    (hph : s.gamePhase = GamePhase.Flop) (hlen : 1 ≤ s.deck.length) :
    advancePhase fresh s = Except.ok { s with
      gamePhase := GamePhase.Turn
      communityCards := s.communityCards ++ s.deck.take 1
      deck := s.deck.drop 1 } := by
  simp only [advancePhase, hph, draw_ok 1 s.deck hlen]

lemma advance_turn_spec (s : Session) (fresh : List Card)
    (hph : s.gamePhase = GamePhase.Turn) (hlen : 1 ≤ s.deck.length) :
    advancePhase fresh s = Except.ok { s with
      gamePhase := GamePhase.River
      communityCards := s.communityCards ++ s.deck.take 1
      deck := s.deck.drop 1 } := by
  simp only [advancePhase, hph, draw_ok 1 s.deck hlen]

lemma advance_river_spec (s : Session) (fresh : List Card)
    (hph : s.gamePhase = GamePhase.River) :
    advancePhase fresh s = Except.ok { s with
      gamePhase := GamePhase.Shuffle
      communityCards := []
      players := clearPockets s.players
      deck := [] } := by
  simp only [advancePhase, hph]

lemma advance_shuffle_spec (s : Session) (fresh : List Card)
    (hph : s.gamePhase = GamePhase.Shuffle) :
    advancePhase fresh s = Except.ok { s with gamePhase := GamePhase.Waiting } := by
  simp only [advancePhase, hph]

lemma sublist_flatten_mono {α : Type} {L1 L2 : List (List α)} (h : List.Sublist L1 L2) :
    List.Sublist L1.flatten L2.flatten := by
  induction h with
  | slnil => exact List.Sublist.refl _
  | cons a _ ih =>
    simp only [List.flatten_cons]
    exact ih.trans (List.sublist_append_right a _)
  | cons₂ a _ ih =>
    simp only [List.flatten_cons]
    exact List.Sublist.append_left ih a

lemma clearPockets_flat (ps : List Player) :
    ((clearPockets ps).map Player.pocketCards).flatten = [] := by
  induction ps with
  | nil => rfl
  | cons p ps ih => simp [clearPockets] at ih ⊢

lemma findPlayerIdx_lt : ∀ (pid : Nat) (ps : List Player) (i : Nat),
    findPlayerIdx pid ps = some i → i < ps.length
| pid, [], i, h => by simp [findPlayerIdx] at h
| pid, p :: ps, i, h => by
  by_cases hp : p.playerId = pid
  · rw [findPlayerIdx, if_pos hp] at h
    cases h
    simp
  · rw [findPlayerIdx, if_neg hp] at h
    rw [Option.map_eq_some'] at h
    obtain ⟨j, hj, hji⟩ := h
    have hlt := findPlayerIdx_lt pid ps j hj
    rw [← hji]
    simp only [List.length_cons]
    omega

lemma joinPlayer_full (a : String) (s : Session) (h : s.maxPlayers ≤ s.players.length) :
    joinPlayer a s = Except.error CoreError.TableFull := by
  simp [joinPlayer, h]

lemma joinPlayer_first (a : String) (s : Session)
    (hfull : ¬ s.maxPlayers ≤ s.players.length) (hemp : s.players = []) :
    joinPlayer a s = Except.ok { s with
      players := [{ playerId := s.nextPlayerId, playerAlias := a, pocketCards := [] }]
      nextPlayerId := s.nextPlayerId + 1
      dealerIdx := some 0
      smallBlindIdx := some 0
      bigBlindIdx := some 0 } := by
  have hempb : s.players.isEmpty = true := by simp [hemp]
  simp [joinPlayer, hfull, hempb]

lemma joinPlayer_app (a : String) (s : Session)
    (hfull : ¬ s.maxPlayers ≤ s.players.length) (hemp : s.players ≠ []) :
    joinPlayer a s = Except.ok { s with
      players := s.players ++ [{ playerId := s.nextPlayerId, playerAlias := a, pocketCards := [] }]
      nextPlayerId := s.nextPlayerId + 1 } := by
  have hempb : s.players.isEmpty = false := List.isEmpty_eq_false.mpr hemp
  simp [joinPlayer, hfull, hempb]

lemma kickPlayer_notFound (pid : Nat) (s : Session)
    (h : findPlayerIdx pid s.players = none) :
    kickPlayer pid s = Except.error CoreError.PlayerNotFound := by
  simp [kickPlayer, h]

lemma kickPlayer_last (pid : Nat) (s : Session) (i : Nat)
    (hf : findPlayerIdx pid s.players = some i)
    (hn : (s.players.eraseIdx i).length = 0) :
    kickPlayer pid s = Except.ok { s with
      players := s.players.eraseIdx i
      dealerIdx := none
      smallBlindIdx := none
      bigBlindIdx := none } := by
  simp [kickPlayer, hf, hn]

lemma kickPlayer_mid (pid : Nat) (s : Session) (i : Nat)
    (hf : findPlayerIdx pid s.players = some i)
    (hn : (s.players.eraseIdx i).length ≠ 0) :
    kickPlayer pid s = Except.ok { s with
      players := s.players.eraseIdx i
      dealerIdx := some (kickDealerIdx i (s.dealerIdx.getD 0) (s.players.eraseIdx i).length)
      smallBlindIdx := some ((kickDealerIdx i (s.dealerIdx.getD 0)
        (s.players.eraseIdx i).length + 1) % (s.players.eraseIdx i).length)
      bigBlindIdx := some ((kickDealerIdx i (s.dealerIdx.getD 0)
        (s.players.eraseIdx i).length + 2) % (s.players.eraseIdx i).length) } := by
  simp [kickPlayer, hf, hn]

lemma kickDealerIdx_lt (i d0 m : Nat) (hi : i < m) (hd0 : d0 < m) (hn : m - 1 ≠ 0) :
    kickDealerIdx i d0 (m - 1) < m - 1 := by
  unfold kickDealerIdx
  by_cases h1 : i = d0
  · rw [if_pos h1]
    exact Nat.mod_lt _ (Nat.pos_of_ne_zero hn)
  · rw [if_neg h1]
    by_cases h2 : i < d0
    · rw [if_pos h2]
      omega
    · rw [if_neg h2]
      omega

/-- Combined inductive invariant of a session: every card sits in at most one
location (the concatenation of deck, community cards and all pocket cards is
duplicate-free), and a nonempty roster always carries a dealer index that
points into the roster. -/
def SessionInv (s : Session) : Prop :=
  (sessionCards s).Nodup ∧
  (s.players ≠ [] → ∃ d, s.dealerIdx = some d ∧ d < s.players.length)

lemma perm_reveal (deck comm flat : List Card) (k : Nat) :
    List.Perm (deck.drop k ++ (comm ++ deck.take k) ++ flat) (deck ++ comm ++ flat) := by
  rw [List.perm_iff_count]
  intro a
  have h := congrArg (List.count a) (List.take_append_drop k deck)
  simp only [List.count_append] at h ⊢
  omega

lemma perm_fresh (deck1 flat : List Card) :
    List.Perm (deck1 ++ [] ++ flat) (flat ++ deck1) := by
  rw [List.perm_iff_count]
  intro a
  simp only [List.count_append, List.count_nil]
  omega

lemma step_inv {s s' : Session} (hst : Step s s') (hinv : SessionInv s) : SessionInv s' := by
  obtain ⟨hnd, hroles⟩ := hinv
  simp only [sessionCards] at hnd
  cases hst with
  | advance fresh s s' hfn hfl h =>
    cases hph : s.gamePhase with
    | Waiting =>
      cases hdeal : dealPockets s.players fresh with
      | error e => simp [advancePhase, hph, hdeal] at h
      | ok pair =>
        obtain ⟨ps1, deck1⟩ := pair
        simp only [advancePhase, hph, hdeal, Except.ok.injEq] at h
        obtain ⟨hl, hids, htwo, hflat, hdrop⟩ := dealPockets_spec s.players fresh ps1 deck1 hdeal
        subst h
        refine ⟨?_, ?_⟩
        · simp only [sessionCards]
          have hperm : List.Perm (deck1 ++ [] ++ (ps1.map Player.pocketCards).flatten) fresh := by
            rw [← hflat]
            exact perm_fresh deck1 _
          exact hperm.symm.nodup hfn
        · intro hne
          dsimp only at hne ⊢
          have hn0 : s.players.length ≠ 0 := by
            intro h0
            rw [h0] at hl
            exact hne (List.length_eq_zero.mp hl)
          obtain ⟨d, hd, hlt⟩ := nextDealerIdx_spec s s.players.length hn0
          rw [hd]
          exact ⟨d, rfl, by rw [hl]; exact hlt⟩
    | PreFlop =>
      cases hdraw : draw 3 s.deck with
      | error e => simp [advancePhase, hph, hdraw] at h
      | ok pair =>
        obtain ⟨cs, deck1⟩ := pair
        obtain ⟨hcs, hd1, hk⟩ := draw_spec hdraw
        subst hcs hd1
        simp only [advancePhase, hph, hdraw, Except.ok.injEq] at h
        subst h
        refine ⟨?_, ?_⟩
        · simp only [sessionCards]
          exact (perm_reveal s.deck s.communityCards _ 3).symm.nodup hnd
        · intro hne
          dsimp only at hne ⊢
          exact hroles hne
    | Flop =>
      cases hdraw : draw 1 s.deck with
      | error e => simp [advancePhase, hph, hdraw] at h
      | ok pair =>
        obtain ⟨cs, deck1⟩ := pair
        obtain ⟨hcs, hd1, hk⟩ := draw_spec hdraw
        subst hcs hd1
        simp only [advancePhase, hph, hdraw, Except.ok.injEq] at h
        subst h
        refine ⟨?_, ?_⟩
        · simp only [sessionCards]
          exact (perm_reveal s.deck s.communityCards _ 1).symm.nodup hnd
        · intro hne
          dsimp only at hne ⊢
          exact hroles hne
    | Turn =>
      cases hdraw : draw 1 s.deck with
      | error e => simp [advancePhase, hph, hdraw] at h
      | ok pair =>
        obtain ⟨cs, deck1⟩ := pair
        obtain ⟨hcs, hd1, hk⟩ := draw_spec hdraw
        subst hcs hd1
        simp only [advancePhase, hph, hdraw, Except.ok.injEq] at h
        subst h
        refine ⟨?_, ?_⟩
        · simp only [sessionCards]
          exact (perm_reveal s.deck s.communityCards _ 1).symm.nodup hnd
        · intro hne
          dsimp only at hne ⊢
          exact hroles hne
    | River =>
      simp only [advancePhase, hph, Except.ok.injEq] at h
      subst h
      refine ⟨?_, ?_⟩
      · simp only [sessionCards]
        rw [clearPockets_flat]
        simp
      · intro hne
        dsimp only at hne ⊢
        have hne0 : s.players ≠ [] := by
          intro h0
          exact hne (by simp [clearPockets, h0])
        obtain ⟨d, hd, hlt⟩ := hroles hne0
        refine ⟨d, hd, ?_⟩
        simpa [clearPockets] using hlt
    | Shuffle =>
      simp only [advancePhase, hph, Except.ok.injEq] at h
      subst h
      refine ⟨?_, ?_⟩
      · simp only [sessionCards]
        exact hnd
      · intro hne
        dsimp only at hne ⊢
        exact hroles hne
  | join a s s' h =>
    by_cases hfull : s.maxPlayers ≤ s.players.length
    · rw [joinPlayer_full a s hfull] at h
      exact absurd h (by simp)
    · by_cases hemp : s.players = []
      · rw [joinPlayer_first a s hfull hemp] at h
        injection h with h
        subst h
        refine ⟨?_, ?_⟩
        · simp only [sessionCards]
          rw [hemp] at hnd
          simpa using hnd
        · intro _
          exact ⟨0, rfl, by simp⟩
      · rw [joinPlayer_app a s hfull hemp] at h
        injection h with h
        subst h
        refine ⟨?_, ?_⟩
        · simp only [sessionCards]
          simp only [List.map_append, List.flatten_append, List.map_cons, List.map_nil,
            List.flatten_cons, List.flatten_nil, List.append_nil]
          exact hnd
        · intro _
          obtain ⟨d, hd, hlt⟩ := hroles hemp
          refine ⟨d, hd, ?_⟩
          dsimp only
          simp only [List.length_append, List.length_cons, List.length_nil]
          omega
  | kick pid s s' h =>
    cases hf : findPlayerIdx pid s.players with
    | none =>
      rw [kickPlayer_notFound pid s hf] at h
      exact absurd h (by simp)
    | some i =>
      have hi : i < s.players.length := findPlayerIdx_lt pid s.players i hf
      have hps : s.players ≠ [] := by
        intro h0
        rw [h0] at hf
        simp [findPlayerIdx] at hf
      have hsub : List.Sublist (((s.players.eraseIdx i).map Player.pocketCards).flatten)
          ((s.players.map Player.pocketCards).flatten) :=
        sublist_flatten_mono ((List.eraseIdx_sublist s.players i).map Player.pocketCards)
      have hnd' : (s.deck ++ s.communityCards ++
          ((s.players.eraseIdx i).map Player.pocketCards).flatten).Nodup :=
        hnd.sublist (List.Sublist.append_left hsub (s.deck ++ s.communityCards))
      have hlen1 : (s.players.eraseIdx i).length = s.players.length - 1 :=
        List.length_eraseIdx_of_lt hi
      by_cases hn : (s.players.eraseIdx i).length = 0
      · rw [kickPlayer_last pid s i hf hn] at h
        injection h with h
        subst h
        refine ⟨?_, ?_⟩
        · simp only [sessionCards]
          exact hnd'
        · intro hne
          dsimp only at hne
          exact absurd (List.length_eq_zero.mp hn) hne
      · rw [kickPlayer_mid pid s i hf hn] at h
        injection h with h
        subst h
        refine ⟨?_, ?_⟩
        · simp only [sessionCards]
          exact hnd'
        · intro _
          obtain ⟨d, hd, hlt⟩ := hroles hps
          dsimp only
          refine ⟨_, rfl, ?_⟩
          rw [hlen1, hd]
          simp only [Option.getD_some]
          have hm1 : s.players.length - 1 ≠ 0 := by
            rw [← hlen1]
            exact hn
          exact kickDealerIdx_lt i d s.players.length hi hlt hm1

lemma reachable_inv {s : Session} (h : Reachable s) : SessionInv s := by
  induction h with
  | init maxPlayers =>
    refine ⟨?_, ?_⟩
    · simp [sessionCards, createSession]
    · intro hne
      exact absurd rfl hne
  | step _ hst ih => exact step_inv hst ih

lemma step_deck_mono {s s' : Session} (hst : Step s s')
    (hph : s.gamePhase ≠ GamePhase.Waiting) : s'.deck.length ≤ s.deck.length := by
  cases hst with
  | advance fresh s s' hfn hfl h =>
    cases hphc : s.gamePhase with
    | Waiting => exact absurd hphc hph
    | PreFlop =>
      cases hdraw : draw 3 s.deck with
      | error e => simp [advancePhase, hphc, hdraw] at h
      | ok pair =>
        obtain ⟨cs, deck1⟩ := pair
        obtain ⟨hcs, hd1, hk⟩ := draw_spec hdraw
        subst hcs hd1
        simp only [advancePhase, hphc, hdraw, Except.ok.injEq] at h
        subst h
        dsimp only
        rw [List.length_drop]
        omega
    | Flop =>
      cases hdraw : draw 1 s.deck with
      | error e => simp [advancePhase, hphc, hdraw] at h
      | ok pair =>
        obtain ⟨cs, deck1⟩ := pair
        obtain ⟨hcs, hd1, hk⟩ := draw_spec hdraw
        subst hcs hd1
        simp only [advancePhase, hphc, hdraw, Except.ok.injEq] at h
        subst h
        dsimp only
        rw [List.length_drop]
        omega
    | Turn =>
      cases hdraw : draw 1 s.deck with
      | error e => simp [advancePhase, hphc, hdraw] at h
      | ok pair =>
        obtain ⟨cs, deck1⟩ := pair
        obtain ⟨hcs, hd1, hk⟩ := draw_spec hdraw
        subst hcs hd1
        simp only [advancePhase, hphc, hdraw, Except.ok.injEq] at h
        subst h
        dsimp only
        rw [List.length_drop]
        omega
    | River =>
      simp only [advancePhase, hphc, Except.ok.injEq] at h
      subst h
      simp
    | Shuffle =>
      simp only [advancePhase, hphc, Except.ok.injEq] at h
      subst h
      exact Nat.le_refl _
  | join a s s' h =>
    by_cases hfull : s.maxPlayers ≤ s.players.length
    · rw [joinPlayer_full a s hfull] at h
      exact absurd h (by simp)
    · by_cases hemp : s.players = []
      · rw [joinPlayer_first a s hfull hemp] at h
        injection h with h
        subst h
        exact Nat.le_refl _
      · rw [joinPlayer_app a s hfull hemp] at h
        injection h with h
        subst h
        exact Nat.le_refl _
  | kick pid s s' h =>
    cases hf : findPlayerIdx pid s.players with
    | none =>
      rw [kickPlayer_notFound pid s hf] at h
      exact absurd h (by simp)
    | some i =>
      by_cases hn : (s.players.eraseIdx i).length = 0
      · rw [kickPlayer_last pid s i hf hn] at h
        injection h with h
        subst h
        exact Nat.le_refl _
      · rw [kickPlayer_mid pid s i hf hn] at h
        injection h with h
        subst h
        exact Nat.le_refl _

lemma advanceIter_succ (fresh : List Card) (k : Nat) (s s1 : Session)
    (h : advancePhase fresh s = Except.ok s1) :
    advanceIter fresh (k + 1) s = advanceIter fresh k s1 := by
  simp only [advanceIter, h]

lemma clearPockets_mem (ps : List Player) : ∀ p ∈ clearPockets ps, p.pocketCards = [] := by
  intro p hp
  simp only [clearPockets, List.mem_map] at hp
  obtain ⟨q, _, rfl⟩ := hp
  rfl

lemma advance_preflop_ex (s : Session) (fresh : List Card)
    (hph : s.gamePhase = GamePhase.PreFlop) (hlen : 3 ≤ s.deck.length) :
    ∃ s', advancePhase fresh s = Except.ok s' ∧
      s'.gamePhase = GamePhase.Flop ∧ s'.handNumber = s.handNumber ∧
      s'.players = s.players ∧ s'.deck.length = s.deck.length - 3 ∧
      s'.communityCards = s.communityCards ++ s.deck.take 3 :=
  ⟨_, advance_preflop_spec s fresh hph hlen, rfl, rfl, rfl, by simp, rfl⟩

lemma advance_flop_ex (s : Session) (fresh : List Card)
    (hph : s.gamePhase = GamePhase.Flop) (hlen : 1 ≤ s.deck.length) :
    ∃ s', advancePhase fresh s = Except.ok s' ∧
      s'.gamePhase = GamePhase.Turn ∧ s'.handNumber = s.handNumber ∧
      s'.players = s.players ∧ s'.deck.length = s.deck.length - 1 ∧
      s'.communityCards = s.communityCards ++ s.deck.take 1 :=
  ⟨_, advance_flop_spec s fresh hph hlen, rfl, rfl, rfl, by simp, rfl⟩

lemma advance_turn_ex (s : Session) (fresh : List Card)
    (hph : s.gamePhase = GamePhase.Turn) (hlen : 1 ≤ s.deck.length) :
    ∃ s', advancePhase fresh s = Except.ok s' ∧
      s'.gamePhase = GamePhase.River ∧ s'.handNumber = s.handNumber ∧
      s'.players = s.players ∧ s'.deck.length = s.deck.length - 1 ∧
      s'.communityCards = s.communityCards ++ s.deck.take 1 :=
  ⟨_, advance_turn_spec s fresh hph hlen, rfl, rfl, rfl, by simp, rfl⟩

lemma advance_river_ex (s : Session) (fresh : List Card)
    (hph : s.gamePhase = GamePhase.River) :
    ∃ s', advancePhase fresh s = Except.ok s' ∧
      s'.gamePhase = GamePhase.Shuffle ∧ s'.handNumber = s.handNumber ∧
      s'.players = clearPockets s.players ∧ s'.deck = [] ∧
      s'.communityCards = [] :=
  ⟨_, advance_river_spec s fresh hph, rfl, rfl, rfl, rfl, rfl⟩

lemma advance_shuffle_ex (s : Session) (fresh : List Card)
    (hph : s.gamePhase = GamePhase.Shuffle) :
    ∃ s', advancePhase fresh s = Except.ok s' ∧
      s'.gamePhase = GamePhase.Waiting ∧ s'.handNumber = s.handNumber ∧
      s'.players = s.players ∧ s'.deck = s.deck ∧
      s'.communityCards = s.communityCards :=
  ⟨_, advance_shuffle_spec s fresh hph, rfl, rfl, rfl, rfl, rfl⟩

lemma runPolling_table_none {α : Type} : ∀ (rs : List (Option α × Nat)) (st0 : ClientState α),
    (runPolling rs st0).table = none → st0.table = none ∧ ∀ x ∈ rs, x.1 = none
| [], st0, h => ⟨h, by simp⟩
| r :: rs, st0, h => by
  have hrec := runPolling_table_none rs (fetchStep st0 r.1 r.2) h
  cases hr : r.1 with
  | some t =>
    rw [hr] at hrec
    simp [fetchStep] at hrec
  | none =>
    rw [hr] at hrec
    refine ⟨?_, ?_⟩
    · simpa [fetchStep] using hrec.1
    · intro x hx
      rcases List.mem_cons.mp hx with hx | hx
      · rw [hx, hr]
      · exact hrec.2 x hx

lemma render_errorPage_table_none {α : Type} (st : ClientState α)
    (h : render st = ClientView.errorPage) : st.table = none := by
  cases hst : st.table with
  | none => rfl
  | some t => simp [render, hst] at h

lemma advStep_preserves (st : AdvState)
    (hinv : st.outstanding = if st.isAdvancing then 1 else 0) (e : AdvEvent) :
    (advStep st e).outstanding = if (advStep st e).isAdvancing then 1 else 0 := by
  cases e with
  | keydown code =>
    by_cases hc : code ∈ supportedKeyCodes ∧ st.hasTable = true ∧ st.isAdvancing = false
    · simp only [advStep, hc, if_true]
      simp [hc.2.2] at hinv
      simp [hinv]
    · simp only [advStep, hc, if_false]
      exact hinv
  | click =>
    by_cases hc : st.hasTable = true ∧ st.isAdvancing = false
    · simp only [advStep, hc, if_true]
      simp [hc.2] at hinv
      simp [hinv]
    · simp only [advStep, hc, if_false]
      exact hinv
  | requestDone =>
    by_cases hc : st.isAdvancing = true
    · simp only [advStep, hc, if_true]
      simp [hc] at hinv
      simp [hinv]
    · simp only [advStep, hc, if_false]
      exact hinv
  | tableLoaded =>
    simp only [advStep]
    exact hinv

lemma foldl_adv_inv : ∀ (evs : List AdvEvent) (st : AdvState),
    st.outstanding = (if st.isAdvancing then 1 else 0) →
    (evs.foldl advStep st).outstanding =
      (if (evs.foldl advStep st).isAdvancing then 1 else 0)
| [], _, h => h
| e :: evs, st, h => foldl_adv_inv evs (advStep st e) (advStep_preserves st h e)

/-- A waiting session with a two player roster, used as a concrete input. -/
def ex2Session : Session :=
  { players := [{ playerId := 0, playerAlias := "A", pocketCards := [] },
                { playerId := 1, playerAlias := "B", pocketCards := [] }]
    gamePhase := GamePhase.Waiting
    handNumber := 0
    handId := 0
    communityCards := []
    deck := []
    maxPlayers := 10
    dealerIdx := some 0
    smallBlindIdx := some 0
    bigBlindIdx := some 0
    nextPlayerId := 2 }

/-- A waiting session with a three player roster, used as a concrete input. -/
def ex3Session : Session :=
  { players := [{ playerId := 0, playerAlias := "A", pocketCards := [] },
                { playerId := 1, playerAlias := "B", pocketCards := [] },
                { playerId := 2, playerAlias := "C", pocketCards := [] }]
    gamePhase := GamePhase.Waiting
    handNumber := 0
    handId := 0
    communityCards := []
    deck := []
    maxPlayers := 10
    dealerIdx := some 0
    smallBlindIdx := some 0
    bigBlindIdx := some 0
    nextPlayerId := 3 }

/-- A session whose roster size equals its maxPlayers, used as a concrete
input. -/
def fullSession : Session :=
  { players := [{ playerId := 0, playerAlias := "Z", pocketCards := [] }]
    gamePhase := GamePhase.Waiting
    handNumber := 0
    handId := 0
    communityCards := []
    deck := []
    maxPlayers := 1
    dealerIdx := some 0
    smallBlindIdx := some 0
    bigBlindIdx := some 0
    nextPlayerId := 1 }

/-- The session obtained by joining one player to a fresh 2-max table. -/
def exJoin1 : Session :=
  { players := [{ playerId := 0, playerAlias := "A", pocketCards := [] }]
    gamePhase := GamePhase.Waiting
    handNumber := 0
    handId := 0
    communityCards := []
    deck := []
    maxPlayers := 2
    dealerIdx := some 0
    smallBlindIdx := some 0
    bigBlindIdx := some 0
    nextPlayerId := 1 }

/-- The session obtained by joining a second player to exJoin1. -/
def exJoin2 : Session :=
  { players := [{ playerId := 0, playerAlias := "A", pocketCards := [] },
                { playerId := 1, playerAlias := "B", pocketCards := [] }]
    gamePhase := GamePhase.Waiting
    handNumber := 0
    handId := 0
    communityCards := []
    deck := []
    maxPlayers := 2
    dealerIdx := some 0
    smallBlindIdx := some 0
    bigBlindIdx := some 0
    nextPlayerId := 2 }

/-- The session obtained by kicking the dealer (player 0) from exJoin2. -/
def exKicked : Session :=
  { players := [{ playerId := 1, playerAlias := "B", pocketCards := [] }]
    gamePhase := GamePhase.Waiting
    handNumber := 0
    handId := 0
    communityCards := []
    deck := []
    maxPlayers := 2
    dealerIdx := some 0
    smallBlindIdx := some 0
    bigBlindIdx := some 0
    nextPlayerId := 2 }

/-- C1: for every session in phase Waiting whose roster has n seated players,
given a fresh deck able to cover the deal, AdvancePhase deals exactly 2 times
n pocket cards (2 to each seated player in seating order), increments the
hand number, moves the phase to Pre-Flop, and assigns dealer, small blind and
big blind to three distinct players whenever n is at least 3. -/
theorem advance_waiting_deals_two_each_distinct_roles
    (fresh : List Card) (s : Session)
    (hph : s.gamePhase = GamePhase.Waiting)
    (hlen : 2 * s.players.length ≤ fresh.length) :
    ∃ s', advancePhase fresh s = Except.ok s' ∧
      s'.gamePhase = GamePhase.PreFlop ∧
      s'.handNumber = s.handNumber + 1 ∧
      (s'.players.map Player.pocketCards).flatten.length = 2 * s.players.length ∧
      (∀ p ∈ s'.players, p.pocketCards.length = 2) ∧
      s'.players.map Player.playerId = s.players.map Player.playerId ∧
      (3 ≤ s.players.length →
        ∃ d sb bb, s'.dealerIdx = some d ∧ s'.smallBlindIdx = some sb ∧
          s'.bigBlindIdx = some bb ∧ d < s.players.length ∧ sb < s.players.length ∧
          bb < s.players.length ∧ d ≠ sb ∧ d ≠ bb ∧ sb ≠ bb) := by
  obtain ⟨s', e, h1, h2, h3, h4, h5, h6, h7, h8, h9, h10, h11, h12⟩ :=
    advance_waiting_spec fresh s hph hlen
  refine ⟨s', e, h1, h2, h6, h5, h4, ?_⟩
  intro h3le
  have hn0 : s.players.length ≠ 0 := by omega
  obtain ⟨d, hd, hdlt⟩ := nextDealerIdx_spec s s.players.length hn0
  obtain ⟨hne1, hne2, hne3⟩ := succ_mod_distinct s.players.length d h3le hdlt
  have hpos : 0 < s.players.length := Nat.pos_of_ne_zero hn0
  refine ⟨d, (d + 1) % s.players.length, (d + 2) % s.players.length,
    ?_, ?_, ?_, hdlt, Nat.mod_lt _ hpos, Nat.mod_lt _ hpos, hne1, hne2, hne3⟩
  · rw [h10, hd]
  · rw [h11, hd]
    rfl
  · rw [h12, hd]
    rfl

/-- Witness for C1 at a concrete three player waiting table and the canonical
deck. -/
theorem advance_waiting_deals_two_each_distinct_roles_witness :
    ∃ s', advancePhase stdDeck ex3Session = Except.ok s' ∧
      s'.gamePhase = GamePhase.PreFlop ∧
      s'.handNumber = ex3Session.handNumber + 1 ∧
      (s'.players.map Player.pocketCards).flatten.length = 2 * ex3Session.players.length ∧
      (∀ p ∈ s'.players, p.pocketCards.length = 2) ∧
      s'.players.map Player.playerId = ex3Session.players.map Player.playerId ∧
      (3 ≤ ex3Session.players.length →
        ∃ d sb bb, s'.dealerIdx = some d ∧ s'.smallBlindIdx = some sb ∧
          s'.bigBlindIdx = some bb ∧ d < ex3Session.players.length ∧
          sb < ex3Session.players.length ∧ bb < ex3Session.players.length ∧
          d ≠ sb ∧ d ≠ bb ∧ sb ≠ bb) :=
  advance_waiting_deals_two_each_distinct_roles stdDeck ex3Session rfl (by decide)

/-- C3: a mutate operation that fails with a core-level error commits no
partial mutation, returning the store unchanged; joining a table whose roster
size equals maxPlayers fails with TableFull; an advance whose deal cannot be
satisfied fails with DeckExhausted. -/
theorem mutate_errors_leave_state_unchanged :
    (∀ (store : Store) (sid : Nat) (op : Op) (e : CoreError),
        (mutateSt store sid op).2 = Except.error e → (mutateSt store sid op).1 = store) ∧
    (∀ (a : String) (s : Session), s.players.length = s.maxPlayers →
        joinPlayer a s = Except.error CoreError.TableFull) ∧
    (∀ (fresh : List Card) (s : Session), s.gamePhase = GamePhase.Waiting →
        fresh.length < 2 * s.players.length →
        advancePhase fresh s = Except.error CoreError.DeckExhausted) := by
  refine ⟨?_, ?_, ?_⟩
  · intro store sid op e h
    simp only [mutateSt] at h ⊢
    cases hg : getSessionSt store sid with
    | error e2 => simp [hg]
    | ok s0 =>
      cases ha : applyOp op s0 with
      | error e2 => simp [hg, ha]
      | ok s1 => simp [hg, ha] at h
  · intro a s hfull
    exact joinPlayer_full a s (by omega)
  · intro fresh s hph hlt
    simp only [advancePhase, hph, dealPockets_err s.players fresh hlt]

/-- Witness for C3 at concrete inputs: an unknown session identifier against
an empty store, a full one-seat table, and an empty shuffle that cannot cover
a two player deal. -/
theorem mutate_errors_leave_state_unchanged_witness :
    (mutateSt ([] : Store) 0 (Op.join "x")).1 = ([] : Store) ∧
    joinPlayer "y" fullSession = Except.error CoreError.TableFull ∧
    advancePhase [] ex2Session = Except.error CoreError.DeckExhausted :=
  ⟨mutate_errors_leave_state_unchanged.1 [] 0 (Op.join "x")
      CoreError.SessionNotFound rfl,
   mutate_errors_leave_state_unchanged.2.1 "y" fullSession (by decide),
   mutate_errors_leave_state_unchanged.2.2 [] ex2Session rfl (by decide)⟩

/-- C4: in every session state reachable by mutate operations from a fresh
session, each card appears in at most one of the deck, any pocket hand and
the community cards (their concatenation is duplicate-free), and no mutate
step taken outside the Waiting phase ever grows the deck. -/
theorem reachable_disjoint_cards_and_deck_shrinks (s : Session) (hr : Reachable s) :
    (sessionCards s).Nodup ∧
    (∀ s', Step s s' → s.gamePhase ≠ GamePhase.Waiting → s'.deck.length ≤ s.deck.length) :=
  ⟨(reachable_inv hr).1, fun _ hst hph => step_deck_mono hst hph⟩

/-- Witness for C4 at the initial session of a four seat table. -/
theorem reachable_disjoint_cards_and_deck_shrinks_witness :
    (sessionCards (createSession 4)).Nodup ∧
    (∀ s', Step (createSession 4) s' →
      (createSession 4).gamePhase ≠ GamePhase.Waiting →
      s'.deck.length ≤ (createSession 4).deck.length) :=
  reachable_disjoint_cards_and_deck_shrinks (createSession 4) (Reachable.init 4)

/-- C5: kicking a seated player from a reachable session recomputes dealer,
small blind and big blind on the remaining roster by the successor rule, so
no role is unassigned or duplicated while at least one player remains;
kicking the last remaining player leaves the phase unchanged and no roles
assigned. -/
theorem kick_reassigns_roles (s : Session) (pid : Nat) (s' : Session)
    (hr : Reachable s) (h : kickPlayer pid s = Except.ok s') :
    (s'.players ≠ [] →
      ∃ d, s'.dealerIdx = some d ∧ d < s'.players.length ∧
        s'.smallBlindIdx = some ((d + 1) % s'.players.length) ∧
        s'.bigBlindIdx = some ((d + 2) % s'.players.length)) ∧
    (s'.players = [] →
      s'.gamePhase = s.gamePhase ∧ s'.dealerIdx = none ∧
      s'.smallBlindIdx = none ∧ s'.bigBlindIdx = none) := by
  have hroles := (reachable_inv hr).2
  cases hf : findPlayerIdx pid s.players with
  | none =>
    rw [kickPlayer_notFound pid s hf] at h
    exact absurd h (by simp)
  | some i =>
    have hi : i < s.players.length := findPlayerIdx_lt pid s.players i hf
    have hps : s.players ≠ [] := by
      intro h0
      rw [h0] at hf
      simp [findPlayerIdx] at hf
    have hlen1 : (s.players.eraseIdx i).length = s.players.length - 1 :=
      List.length_eraseIdx_of_lt hi
    by_cases hn : (s.players.eraseIdx i).length = 0
    · rw [kickPlayer_last pid s i hf hn] at h
      injection h with h
      subst h
      refine ⟨?_, ?_⟩
      · intro hne
        exact absurd (List.length_eq_zero.mp hn) hne
      · intro _
        exact ⟨rfl, rfl, rfl, rfl⟩
    · rw [kickPlayer_mid pid s i hf hn] at h
      injection h with h
      subst h
      refine ⟨?_, ?_⟩
      · intro _
        obtain ⟨d, hd, hlt⟩ := hroles hps
        refine ⟨_, rfl, ?_, rfl, rfl⟩
        show kickDealerIdx i (s.dealerIdx.getD 0) (s.players.eraseIdx i).length <
          (s.players.eraseIdx i).length
        rw [hlen1, hd]
        simp only [Option.getD_some]
        have hm1 : s.players.length - 1 ≠ 0 := by
          rw [← hlen1]
          exact hn
        exact kickDealerIdx_lt i d s.players.length hi hlt hm1
      · intro heq
        have heq' : s.players.eraseIdx i = [] := heq
        rw [heq'] at hn
        simp at hn

/-- Witness for C5: kicking the dealer of a reachable two player table leaves
the surviving player holding all three roles by the successor rule. -/
theorem kick_reassigns_roles_witness :
    ∃ d, exKicked.dealerIdx = some d ∧ d < exKicked.players.length ∧
      exKicked.smallBlindIdx = some ((d + 1) % exKicked.players.length) ∧
      exKicked.bigBlindIdx = some ((d + 2) % exKicked.players.length) :=
  (kick_reassigns_roles exJoin2 0 exKicked
    (Reachable.step
      (Reachable.step (Reachable.init 2)
        (Step.join "A" (createSession 2) exJoin1 rfl))
      (Step.join "B" exJoin1 exJoin2 rfl))
    rfl).1 (by decide)

/-- C2 counterexample: from a concrete waiting session with a two player
roster, applying AdvancePhase seven times lands in Pre-Flop with the hand
number increased by 2; it does not return to Waiting with the hand number
increased by 1. One full phase cycle is six advances, not seven. -/
theorem seven_advances_do_not_return_to_waiting :
    (advanceIter stdDeck 7 ex2Session).map Session.gamePhase =
      Except.ok GamePhase.PreFlop ∧
    GamePhase.PreFlop ≠ GamePhase.Waiting ∧
    (advanceIter stdDeck 7 ex2Session).map Session.handNumber =
      Except.ok (ex2Session.handNumber + 2) :=
  ⟨rfl, by decide, rfl⟩

/-- C2 amended: for every session in phase Waiting with a 2-player roster and
a fresh 52-card shuffle, applying AdvancePhase six times (one full cycle
Waiting, Pre-Flop, Flop, Turn, River, Shuffle, back to Waiting) returns the
session to phase Waiting with the hand number incremented by exactly 1 and
all pocket cards and community cards cleared. -/
theorem six_advances_return_to_waiting
    (s : Session) (fresh : List Card)
    (hph : s.gamePhase = GamePhase.Waiting)
    (hn : s.players.length = 2)
    (hfl : fresh.length = 52) :
    ∃ s', advanceIter fresh 6 s = Except.ok s' ∧
      s'.gamePhase = GamePhase.Waiting ∧
      s'.handNumber = s.handNumber + 1 ∧
      s'.communityCards = [] ∧
      (∀ p ∈ s'.players, p.pocketCards = []) := by
  obtain ⟨s1, e1, h1ph, h1hn, h1len, h1ids, h1two, h1flat, h1cc, h1dk, h1max, h1d, h1sb, h1bb⟩ :=
    advance_waiting_spec fresh s hph (by omega)
  have hd1 : s1.deck.length = 48 := by
    rw [h1dk, hfl, hn]
  obtain ⟨s2, e2, h2ph, h2hn, h2pl, h2dk, h2cc⟩ :=
    advance_preflop_ex s1 fresh h1ph (by omega)
  obtain ⟨s3, e3, h3ph, h3hn, h3pl, h3dk, h3cc⟩ :=
    advance_flop_ex s2 fresh h2ph (by omega)
  obtain ⟨s4, e4, h4ph, h4hn, h4pl, h4dk, h4cc⟩ :=
    advance_turn_ex s3 fresh h3ph (by omega)
  obtain ⟨s5, e5, h5ph, h5hn, h5pl, h5dk, h5cc⟩ :=
    advance_river_ex s4 fresh h4ph
  obtain ⟨s6, e6, h6ph, h6hn, h6pl, h6dk, h6cc⟩ :=
    advance_shuffle_ex s5 fresh h5ph
  refine ⟨s6, ?_, h6ph, ?_, ?_, ?_⟩
  · rw [advanceIter_succ fresh 5 s s1 e1,
        advanceIter_succ fresh 4 s1 s2 e2,
        advanceIter_succ fresh 3 s2 s3 e3,
        advanceIter_succ fresh 2 s3 s4 e4,
        advanceIter_succ fresh 1 s4 s5 e5,
        advanceIter_succ fresh 0 s5 s6 e6]
    rfl
  · rw [h6hn, h5hn, h4hn, h3hn, h2hn, h1hn]
  · rw [h6cc, h5cc]
  · rw [h6pl, h5pl]
    exact clearPockets_mem s4.players

/-- Witness for the amended C2 at a concrete two player waiting table and the
canonical deck. -/
theorem six_advances_return_to_waiting_witness :
    ∃ s', advanceIter stdDeck 6 ex2Session = Except.ok s' ∧
      s'.gamePhase = GamePhase.Waiting ∧
      s'.handNumber = ex2Session.handNumber + 1 ∧
      s'.communityCards = [] ∧
      (∀ p ∈ s'.players, p.pocketCards = []) :=
  six_advances_return_to_waiting ex2Session stdDeck rfl rfl (by decide)

/-- C6: a failed read leaves the previously held snapshot and its timestamp
in place; with a snapshot already held the page keeps rendering it, marked
disconnected; a run of polls renders the full error page only when no poll
ever succeeded; and the poll schedule is a fixed interval with no backoff. -/
theorem failed_reads_keep_last_snapshot :
    (∀ (α : Type) (st : ClientState α) (now : Nat),
        (fetchStep st none now).table = st.table ∧
        (fetchStep st none now).lastUpdated = st.lastUpdated) ∧
    (∀ (α : Type) (st : ClientState α) (t : α) (now : Nat), st.table = some t →
        render (fetchStep st none now) = ClientView.tableView t true) ∧
    (∀ (α : Type) (rs : List (Option α × Nat)),
        render (runPolling rs (initClient : ClientState α)) = ClientView.errorPage →
        ∀ x ∈ rs, x.1 = none) ∧
    (∀ k : Nat, pollTick tablePollIntervalMs (k + 1) - pollTick tablePollIntervalMs k =
        tablePollIntervalMs) := by
  refine ⟨?_, ?_, ?_, ?_⟩
  · intro α st now
    exact ⟨rfl, rfl⟩
  · intro α st t now h
    simp [fetchStep, render, h]
  · intro α rs h
    exact (runPolling_table_none rs initClient
      (render_errorPage_table_none _ h)).2
  · intro k
    simp only [pollTick, tablePollIntervalMs]
    omega

/-- Witness for C6: a failed poll over a held snapshot keeps showing it as
disconnected, and a run of two failed polls from scratch only ever saw
failures when it renders the error page. -/
theorem failed_reads_keep_last_snapshot_witness :
    render (fetchStep ({ table := some 7, errMsg := none, lastUpdated := some 0 } :
      ClientState Nat) none 5) = ClientView.tableView 7 true ∧
    (∀ x ∈ ([(none, 0), (none, 5000)] : List (Option Nat × Nat)), x.1 = none) :=
  ⟨failed_reads_keep_last_snapshot.2.1 Nat _ 7 5 rfl,
   failed_reads_keep_last_snapshot.2.2.1 Nat [(none, 0), (none, 5000)] (by decide)⟩

/-- C7 counterexample: with a connection error flagged, the status dot is red
even when the last successful read is 0 milliseconds old, well inside the
freshness threshold; so the dot is not a function of the last-success time
alone, and live does not follow from being inside the threshold. -/
theorem freshness_dot_red_within_threshold :
    freshnessDot true (some 0) 0 = Dot.red ∧
    freshnessDot true (some 0) 0 ≠ Dot.green ∧
    0 - 0 < freshnessThresholdMs := by
  decide

/-- C7 amended: when no connection error is flagged, the status dot is green
exactly when the elapsed time since the last successful read is below the
12000 ms freshness threshold and red otherwise, and gray when no read ever
succeeded; a flagged connection error forces red regardless of elapsed time;
and only successful reads update the last-read timestamp. -/
theorem freshness_dot_follows_last_success :
    (∀ t now : Nat, freshnessDot false (some t) now = Dot.green ↔
        now - t < freshnessThresholdMs) ∧
    (∀ t now : Nat, freshnessDot false (some t) now = Dot.red ↔
        ¬ now - t < freshnessThresholdMs) ∧
    (∀ (lu : Option Nat) (now : Nat), freshnessDot true lu now = Dot.red) ∧
    (∀ now : Nat, freshnessDot false none now = Dot.gray) ∧
    (∀ (α : Type) (st : ClientState α) (t : α) (now : Nat),
        (fetchStep st (some t) now).lastUpdated = some now) ∧
    (∀ (α : Type) (st : ClientState α) (now : Nat),
        (fetchStep st none now).lastUpdated = st.lastUpdated) ∧
    freshnessThresholdMs = 12000 := by
  refine ⟨?_, ?_, ?_, ?_, ?_, ?_, rfl⟩
  · intro t now
    by_cases h : now - t < freshnessThresholdMs <;> simp [freshnessDot, h]
  · intro t now
    by_cases h : now - t < freshnessThresholdMs <;> simp [freshnessDot, h]
  · intro lu now
    simp [freshnessDot]
  · intro now
    simp [freshnessDot]
  · intro α st t now
    rfl
  · intro α st now
    rfl

/-- C8: the per-player hand view polls every 2000 ms, strictly faster than
the full-table view which polls every 5000 ms. -/
theorem player_view_polls_faster_than_table_view :
    playerPollIntervalMs < tablePollIntervalMs ∧
    playerPollIntervalMs = 2000 ∧ tablePollIntervalMs = 5000 := by
  decide

/-- C9: while an advance request is in flight (isAdvancing is set), a further
key press or button click leaves the advance-loop state unchanged and issues
no second request, so along every event sequence at most one advance request
is outstanding. -/
theorem at_most_one_outstanding_advance :
    (∀ (st : AdvState) (code : String), st.isAdvancing = true →
        advStep st (AdvEvent.keydown code) = st) ∧
    (∀ st : AdvState, st.isAdvancing = true → advStep st AdvEvent.click = st) ∧
    (∀ evs : List AdvEvent, (runAdv evs).outstanding ≤ 1) := by
  refine ⟨?_, ?_, ?_⟩
  · intro st code h
    have hc : ¬ (code ∈ supportedKeyCodes ∧ st.hasTable = true ∧ st.isAdvancing = false) := by
      intro hc
      rw [h] at hc
      simp at hc
    simp [advStep, hc]
  · intro st h
    have hc : ¬ (st.hasTable = true ∧ st.isAdvancing = false) := by
      intro hc
      rw [h] at hc
      simp at hc
    simp [advStep, hc]
  · intro evs
    have hinv := foldl_adv_inv evs initAdv rfl
    show (evs.foldl advStep initAdv).outstanding ≤ 1
    rw [hinv]
    split <;> omega

/-- Witness for C9: a keydown while a request is in flight changes nothing,
and a concrete event run never has more than one request outstanding. -/
theorem at_most_one_outstanding_advance_witness :
    advStep { isAdvancing := true, outstanding := 1, hasTable := true }
      (AdvEvent.keydown "Space") =
      { isAdvancing := true, outstanding := 1, hasTable := true } ∧
    (runAdv [AdvEvent.tableLoaded, AdvEvent.keydown "Space",
      AdvEvent.keydown "Enter", AdvEvent.click]).outstanding ≤ 1 :=
  ⟨at_most_one_outstanding_advance.1 _ "Space" rfl,
   at_most_one_outstanding_advance.2.2 _⟩

/-- C10: getButtonText is total over the six phases: Waiting, Pre-Flop, Flop,
Turn and River each map to their own specific label, while Shuffle has no
case of its own and falls through to the default label Advance Game. -/
theorem getButtonText_total_labels :
    getButtonText GamePhase.Waiting = "Deal" ∧
    getButtonText GamePhase.PreFlop = "Show Flop" ∧
    getButtonText GamePhase.Flop = "Show Turn" ∧
    getButtonText GamePhase.Turn = "Show River" ∧
    getButtonText GamePhase.River = "Shuffle" ∧
    getButtonText GamePhase.Shuffle = "Advance Game" ∧
    "Advance Game" ∉ [getButtonText GamePhase.Waiting, getButtonText GamePhase.PreFlop,
      getButtonText GamePhase.Flop, getButtonText GamePhase.Turn,
      getButtonText GamePhase.River] := by
  refine ⟨rfl, rfl, rfl, rfl, rfl, rfl, ?_⟩
  decide

end DealMe

